import Mathlib

/-!
Verification of the folder-tab-opening core of `file_tab_opener`.

The Python source is shallowly embedded: pure helpers become Lean
functions over `String` / `List Char`; effectful code (subprocess
spawns, AppleScript execution, UI automation, callbacks) is modelled by
explicit "world" records of oracles for the external calls, and each
operation returns its result together with the list of externally
observable events (progress callbacks, error callbacks, OS open
attempts, tier invocations) in the order the source emits them.
-/

namespace FileTabOpener

/-! ## Generic list/string helpers (embedding Python string primitives) -/

/-- Embedding of Python `haystack.startswith(needle)` on character lists. -/
def listStartsWith : List Char → List Char → Bool
  | _, [] => true
  | [], _ :: _ => false
  | a :: as, b :: bs => if a = b then listStartsWith as bs else false

/-- Embedding of Python `needle in haystack` (contiguous substring test). -/
def containsSub : List Char → List Char → Bool
  | [], needle => needle.isEmpty
  | a :: rest, needle => listStartsWith (a :: rest) needle || containsSub rest needle

/-- ASCII lower-casing of one character; embeds the effect of Python
`str.lower()` on the characters relevant here (the accessibility
keywords are ASCII or caseless CJK/Hangul). -/
def lowerChar (c : Char) : Char :=
  if 65 ≤ c.toNat ∧ c.toNat ≤ 90 then Char.ofNat (c.toNat + 32) else c

/-- Embedding of Python `s.lower()`. -/
def lowerStr (s : String) : String :=
  String.mk (s.data.map lowerChar)

/-- Embedding of `list(dict.fromkeys(paths))` (opener_win.py line 271):
deduplicate keeping the first occurrence of each element, preserving
first-occurrence order.  `seen` is the set of keys already inserted. -/
def dictFromkeysGo (seen : List String) : List String → List String
  | [] => []
  | p :: rest =>
      if p ∈ seen then dictFromkeysGo seen rest
      else p :: dictFromkeysGo (p :: seen) rest

/-- `list(dict.fromkeys(paths))`. -/
def dictFromkeys (paths : List String) : List String :=
  dictFromkeysGo [] paths

/-! ## Path validator (`file_tab_opener/__init__.py`) -/

/-- External filesystem/environment collaborators of `validate_paths`:
`os.path.expanduser` and `Path(...).is_dir()`. -/
structure FsWorld where
  expanduser : String → String
  isDir : String → Bool

/-- Embedding of `is_unc_path` (`__init__.py` lines 16-19):
`p.replace("/", "\\").startswith("\\\\")` — a single-character
replacement followed by a two-backslash prefix test. -/
def is_unc_path (p : String) : Bool :=
  listStartsWith (p.data.map fun c => if c = '/' then '\\' else c) ['\\', '\\']

/-- Embedding of `validate_paths` (`__init__.py` lines 22-36).  For each
input path, expand the home shorthand, then append the expanded path to
`valid` if it is a UNC path or an existing directory (Python `or`
short-circuits, so `is_dir` is not consulted for UNC paths), else append
the original path to `invalid`. -/
def validate_paths (w : FsWorld) : List String → List String × List String
  | [] => ([], [])
  | p :: rest =>
      let expanded := w.expanduser p
      let r := validate_paths w rest
      if is_unc_path expanded || w.isDir expanded then (expanded :: r.1, r.2)
      else (r.1, p :: r.2)

/-- The list of arguments on which `validate_paths` consults the
directory-existence check `Path(...).is_dir()`: because Python `or`
short-circuits, the check runs exactly for the non-UNC expanded paths. -/
def validatePathsConsults (w : FsWorld) : List String → List String
  | [] => []
  | p :: rest =>
      let expanded := w.expanduser p
      (if is_unc_path expanded then [] else [expanded]) ++ validatePathsConsults w rest

/-- The classification a single input path receives in `validate_paths`:
valid iff its expansion is a UNC path or reported as a directory. -/
def goodPath (w : FsWorld) (p : String) : Bool :=
  is_unc_path (w.expanduser p) || w.isDir (w.expanduser p)

/-! ## AppleScript string escaping (`opener_mac.py` lines 28-30) -/

/-- Embedding of a Python single-character `str.replace(target, repl)`
(the only uses in `_esc_applescript` replace one character by a short
character sequence). -/
def replaceEsc (target : Char) (repl : List Char) : List Char → List Char
  | [] => []
  | c :: rest => (if c = target then repl else [c]) ++ replaceEsc target repl rest

/-- Embedding of `_esc_applescript`:
`p.replace("\\", "\\\\").replace('"', '\\"')` — double every backslash,
then prefix every double quote with a backslash. -/
def _esc_applescript (p : String) : String :=
  String.mk (replaceEsc '"' ['\\', '"'] (replaceEsc '\\' ['\\', '\\'] p.data))

/-- Interpretation of an AppleScript string-literal escape `\c`.
Modelled from the AppleScript language rules referenced by the spec:
`\\`, `\"`, `\n`, `\r`, `\t` denote backslash, quote, LF, CR, TAB. -/
def unescChar (c : Char) : Char :=
  if c = 'n' then '\n' else if c = 'r' then '\r' else if c = 't' then '\t' else c

/-- Modelled from the spec: the AppleScript string-literal unescaping
rules (the claim's "conceptually unescaped by the target scripting
language's string rules"). -/
def unescapeChars : List Char → List Char
  | [] => []
  | c :: rest =>
      if c = '\\' then
        match rest with
        | [] => ['\\']
        | d :: rest2 => unescChar d :: unescapeChars rest2
      else c :: unescapeChars rest

/-! ## AppleScript builder (`opener_mac.py` lines 125-169 and 33-48) -/

/-- A requested window rectangle `(x, y, width, height)`. -/
abbrev Rect := Int × Int × Int × Int

/-- `_RETRY_MAX` (opener_mac.py line 23). -/
def _RETRY_MAX : Nat := 30

/-- The `set bounds` directive: AppleScript bounds are the corner
coordinates `{x, y, x + w, y + h}`. -/
def boundsLine (r : Rect) : String :=
  "  set bounds of front Finder window to \x7b"
    ++ (toString r.1 ++ ", " ++ toString r.2.1 ++ ", "
        ++ toString (r.1 + r.2.2.1) ++ ", " ++ toString (r.2.1 + r.2.2.2) ++ "\x7d")

/-- The first-window creation line with the escaped path embedded. -/
def makeWindowLine (p : String) : String :=
  "  make new Finder window to POSIX file \"" ++ (_esc_applescript p ++ "\" as alias")

/-- The `set target` retry-body line with the escaped path embedded. -/
def setTargetLine (p : String) : String :=
  "      set target of front Finder window to POSIX file \""
    ++ (_esc_applescript p ++ "\" as alias")

/-- The "new tab" keystroke directive (⌘T). -/
def keystrokeLine : String := "    keystroke \"t\" using command down"

/-- Header of the bounded retry loop (`repeat 30 times`). -/
def retryHeaderLine : String := "repeat " ++ toString _RETRY_MAX ++ " times"

/-- Lines of the first-path block of `_build_applescript`: activate
Finder, make a new window on the first path, optionally set bounds. -/
def firstWindowLines (p : String) (rect : Option Rect) : List String :=
  ["tell application \"Finder\"", "  activate", makeWindowLine p]
  ++ (match rect with
      | some r => [boundsLine r]
      | none => [])
  ++ ["end tell"]

/-- Lines appended per remaining path: the ⌘T keystroke block followed
by the bounded `set target` retry loop. -/
def tabBlockLines (p : String) : List String :=
  ["", "tell application \"System Events\"", "  tell process \"Finder\"",
   keystrokeLine, "  end tell", "end tell", "",
   retryHeaderLine, "  try", "    tell application \"Finder\"",
   setTargetLine p,
   "    end tell", "    exit repeat", "  on error", "    delay 0.1", "  end try",
   "end repeat"]

/-- Embedding of `_build_applescript` as the list of generated lines.
The source indexes `paths[0]` and iterates `paths[1:]`; it is only ever
called with a non-empty list, and the `[]` case (a Python `IndexError`)
is mapped to `[]`. -/
def _build_applescript_lines (paths : List String) (rect : Option Rect) : List String :=
  match paths with
  | [] => []
  | p0 :: rest => firstWindowLines p0 rect ++ rest.flatMap tabBlockLines

/-- The generated script: the lines joined by newlines
(`"\n".join(lines)`). -/
def _build_applescript (paths : List String) (rect : Option Rect) : String :=
  String.intercalate "\n" (_build_applescript_lines paths rect)

/-- Embedding of `_build_open_window_script` (opener_mac.py lines
33-48): the one-window script used by `open_single_folder` and the
separate-windows fallback. -/
def _build_open_window_script (path : String) (rect : Option Rect) : String :=
  "tell application \"Finder\"\n  activate\n"
    ++ ("  " ++ (makeWindowLine path).drop 2 ++ "\n")
    ++ (match rect with
        | some r => boundsLine r ++ "\n"
        | none => "")
    ++ "end tell"

/-! ## Events and exceptions -/

/-- A Python exception value; `msg` is what `str(e)` yields. -/
structure PyExc where
  msg : String
deriving Repr, DecidableEq

/-- Externally observable events of one `open_folders_as_tabs` call, in
emission order:
* `progress i n p` — the `on_progress(i, n, p)` callback;
* `error p m` — the `on_error(p, m)` callback;
* `osOpen p` — an OS-level attempt to open path `p` (an `explorer.exe` /
  `osascript` spawn or a tab-creation step for `p`);
* `applyRect hwnd r` — `_apply_window_rect(hwnd, r)`, i.e. `MoveWindow`
  receiving exactly the rectangle `r`;
* `tierStart k ps` — a primary tier `k` starting on path list `ps`;
* `fallbackStart ps` — the final separate-windows fallback tier starting
  on path list `ps`. -/
inductive Event where
  | progress (current total : Nat) (path : String)
  | error (path message : String)
  | osOpen (path : String)
  | applyRect (hwnd : Nat) (r : Rect)
  | tierStart (tier : Nat) (paths : List String)
  | fallbackStart (paths : List String)
deriving Repr, DecidableEq

/-- Embedding of `_apply_window_rect` (`opener_win.py` lines 158-162):
`MoveWindow` is handed the four components of `window_rect` unchanged. -/
def _apply_window_rect (hwnd : Nat) (r : Rect) : Event :=
  Event.applyRect hwnd r

/-- The `current_index` values of the progress events, in order. -/
def progressIndices (evs : List Event) : List Nat :=
  evs.filterMap fun e =>
    match e with
    | .progress i _ _ => some i
    | _ => none

/-- The progress events only, in order. -/
def progressOnly (evs : List Event) : List Event :=
  evs.filter fun e =>
    match e with
    | .progress _ _ _ => true
    | _ => false

/-- The `(path, message)` pairs of the error events, in order. -/
def errorList (evs : List Event) : List (String × String) :=
  evs.filterMap fun e =>
    match e with
    | .error p m => some (p, m)
    | _ => none

/-- The paths of the OS open attempts, in order. -/
def osOpenList (evs : List Event) : List String :=
  evs.filterMap fun e =>
    match e with
    | .osOpen p => some p
    | _ => none

/-- The argument lists of the separate-windows fallback invocations. -/
def fallbackCalls (evs : List Event) : List (List String) :=
  evs.filterMap fun e =>
    match e with
    | .fallbackStart ps => some ps
    | _ => none

/-! ## macOS strategy (`opener_mac.py`) -/

/-- Multilingual keyword set for accessibility-permission errors
(opener_mac.py line 25). -/
def _ACCESSIBILITY_KEYWORDS : List String :=
  ["assistive", "アクセシビリティ", "辅助功能", "보조"]

/-- `any(kw in error_msg.lower() for kw in _ACCESSIBILITY_KEYWORDS)`. -/
def isAccessibilityError (errorMsg : String) : Bool :=
  _ACCESSIBILITY_KEYWORDS.any fun kw => containsSub (lowerStr errorMsg).data kw.data

/-- The `error.accessibility_required` entry of the i18n table
(`i18n.py` lines 333-349), looked up by `t()` for the current language
with English as the fallback. -/
def t_accessibility (lang : String) : String :=
  if lang = "ja" then
    "アクセシビリティの許可が必要です。\nシステム設定 → プライバシーとセキュリティ → アクセシビリティ\nでTerminal.appのアクセスを有効にしてください。"
  else if lang = "ko" then
    "손쉬운 사용 권한이 필요합니다.\n시스템 설정 → 개인정보 보호 및 보안 → 손쉬운 사용\n에서 Terminal.app의 접근을 허용하세요."
  else if lang = "zh_TW" then
    "需要輔助使用權限。\n前往系統設定 → 隱私與安全性 → 輔助使用\n並啟用 Terminal.app 的存取權限。"
  else if lang = "zh_CN" then
    "需要辅助功能权限。\n前往系统设置 → 隐私与安全性 → 辅助功能\n并启用 Terminal.app 的访问权限。"
  else
    "Accessibility permission required.\nGo to System Settings → Privacy & Security → Accessibility\nand enable access for Terminal.app."

/-- External collaborators of the macOS strategy:
* `expanduser` — `os.path.expanduser`;
* `runApplescript` — the outcome of `_run_applescript(script)`:
  `ok (success, stderr)` when it returns, `error e` when the call itself
  raises (the outer `except Exception` branch);
* `popenScript` — the outcome of the fire-and-forget
  `subprocess.Popen(["osascript", "-e", script], ...)` in
  `_open_separate` (raises `error e` on a spawn failure);
* `lang` — the i18n language used by `t()`. -/
structure MacWorld where
  expanduser : String → String
  runApplescript : String → Except PyExc (Bool × String)
  popenScript : String → Except PyExc Unit
  lang : String

namespace OpenerMac

/-- `on_progress(i, len(paths), p) for i, p in enumerate(paths, start=1)`:
the completion-summary progress events of the successful AppleScript
tier. -/
def enumProgress : List String → Nat → Nat → List Event
  | [], _, _ => []
  | p :: rest, i, n => Event.progress i n p :: enumProgress rest (i + 1) n

/-- The per-path loop of `_open_separate` (opener_mac.py lines 195-206):
build the one-window script, `Popen` it, report progress on success; a
per-path exception yields one error event and the loop continues. -/
def sepLoop (w : MacWorld) (rect : Option Rect) : List String → Nat → Nat → List Event
  | [], _, _ => []
  | p :: rest, i, n =>
      (match w.popenScript (_build_open_window_script p rect) with
       | .ok _ => [Event.osOpen p, Event.progress i n p]
       | .error e => [Event.osOpen p, Event.error p e.msg])
      ++ sepLoop w rect rest (i + 1) n

/-- Embedding of `_open_separate` (opener_mac.py lines 188-207): opens
each folder in a separate window and always returns `True`. -/
def _open_separate (w : MacWorld) (paths : List String) (rect : Option Rect) :
    Bool × List Event :=
  (true, sepLoop w rect paths 1 paths.length)

/-- Embedding of the macOS `open_folders_as_tabs` (opener_mac.py lines
76-122).  Empty input: `False` with no OS interaction.  Otherwise run
the generated AppleScript; on success emit one progress event per
expanded path; on reported failure or exception emit one error event
keyed to the first expanded path (substituting the canned localized
message for accessibility-permission failures) and fall back to
`_open_separate` on the full expanded list. -/
def open_folders_as_tabs (w : MacWorld) (paths : List String) (rect : Option Rect) :
    Bool × List Event :=
  match paths with
  | [] => (false, [])
  | _ :: _ =>
      let expanded := paths.map w.expanduser
      let p0 := expanded.headD ""
      match w.runApplescript (_build_applescript expanded rect) with
      | .ok (true, _) =>
          (true, Event.tierStart 1 expanded :: enumProgress expanded 1 expanded.length)
      | .ok (false, errMsg) =>
          let emsg :=
            if isAccessibilityError errMsg then t_accessibility w.lang
            else "AppleScript error: " ++ errMsg
          let r := _open_separate w expanded rect
          (r.1, [Event.tierStart 1 expanded, Event.error p0 emsg,
                 Event.fallbackStart expanded] ++ r.2)
      | .error e =>
          let r := _open_separate w expanded rect
          (r.1, [Event.tierStart 1 expanded, Event.error p0 e.msg,
                 Event.fallbackStart expanded] ++ r.2)

end OpenerMac

/-- Whether the macOS primary (AppleScript) tier raises or reports
failure on this batch. -/
def macPrimaryFails (w : MacWorld) (paths : List String) (rect : Option Rect) : Bool :=
  match w.runApplescript (_build_applescript (paths.map w.expanduser) rect) with
  | .ok (true, _) => false
  | _ => true

/-! ## Windows strategy (`opener_win.py`) -/

/-- External collaborators of the Windows strategy.  Each oracle stands
for one external call site:
* `pywinautoAvailable` — `_check_pywinauto()`;
* `pywinautoImport` — `from pywinauto import ...` inside tier 1;
* `normpath` — `os.path.normpath`;
* `spawn1`/`spawn2`/`sepSpawn p` — the `subprocess.Popen(["explorer.exe",
  ...])` calls of tiers 1, 2 and 3;
* `findNew1`/`findNew2`/`findNewSep p` — `_find_new_explorer_hwnd`
  results at the three call sites (`none` = timeout);
* `uiaConnect` — `Application(backend="uia").connect` + window lookup +
  `set_focus`;
* `tier1PathStep p`/`tier2PathStep p` — the whole per-path body of the
  tier-1 (UIA keystroke/address-bar/verify/navigate) and tier-2
  (SendInput) loops: `ok` when the body completes (its last statement is
  the progress callback), `error e` when it raises. -/
structure WinWorld where
  pywinautoAvailable : Bool
  pywinautoImport : Except PyExc Unit
  normpath : String → String
  spawn1 : Except PyExc Unit
  findNew1 : Option Nat
  uiaConnect : Except PyExc Unit
  tier1PathStep : String → Except PyExc Unit
  spawn2 : Except PyExc Unit
  findNew2 : Option Nat
  tier2PathStep : String → Except PyExc Unit
  sepSpawn : String → Except PyExc Unit
  findNewSep : String → Option Nat

namespace OpenerWin

/-- The per-path loop of `_open_tabs_pywinauto_uia` over `paths[1:]`
(opener_win.py lines 361-433): each path's body either completes and
reports progress, or raises and reports one error event, and the loop
continues either way. -/
def tier1Loop (w : WinWorld) : List String → Nat → Nat → List Event
  | [], _, _ => []
  | p :: rest, i, n =>
      (match w.tier1PathStep p with
       | .ok _ => [Event.osOpen p, Event.progress i n p]
       | .error e => [Event.osOpen p, Event.error p e.msg])
      ++ tier1Loop w rest (i + 1) n

/-- Embedding of `_open_tabs_pywinauto_uia` (opener_win.py lines
306-438).  Spawn the first path, wait for the new Explorer window
(timeout raises `RuntimeError`), report progress for the first path,
return `True` for a single path, otherwise connect via UIA and run the
per-path tab loop, then apply the window rectangle. -/
def _open_tabs_pywinauto_uia (w : WinWorld) (paths : List String) (rect : Option Rect) :
    Except PyExc Bool × List Event :=
  match w.pywinautoImport with
  | .error e => (.error e, [])
  | .ok _ =>
      let p0 := paths.headD ""
      match w.spawn1 with
      | .error e => (.error e, [Event.osOpen p0])
      | .ok _ =>
          match w.findNew1 with
          | none => (.error ⟨"New Explorer window not found"⟩, [Event.osOpen p0])
          | some hwnd =>
              let ev0 := [Event.osOpen p0, Event.progress 1 paths.length p0]
              if paths.length = 1 then (.ok true, ev0)
              else
                match w.uiaConnect with
                | .error e => (.error e, ev0)
                | .ok _ =>
                    (.ok true,
                     ev0 ++ tier1Loop w (paths.drop 1) 2 paths.length
                         ++ (match rect with
                             | some r => [_apply_window_rect hwnd r]
                             | none => []))

/-- The per-path loop of `_open_tabs_ctypes` over `paths[1:]`
(opener_win.py lines 472-492). -/
def tier2Loop (w : WinWorld) : List String → Nat → Nat → List Event
  | [], _, _ => []
  | p :: rest, i, n =>
      (match w.tier2PathStep p with
       | .ok _ => [Event.osOpen p, Event.progress i n p]
       | .error e => [Event.osOpen p, Event.error p e.msg])
      ++ tier2Loop w rest (i + 1) n

/-- Embedding of `_open_tabs_ctypes` (opener_win.py lines 441-497).
Note the order: progress for the first path is reported right after the
spawn, BEFORE the new-window wait that can raise `RuntimeError`. -/
def _open_tabs_ctypes (w : WinWorld) (paths : List String) (rect : Option Rect) :
    Except PyExc Bool × List Event :=
  let p0 := paths.headD ""
  match w.spawn2 with
  | .error e => (.error e, [Event.osOpen p0])
  | .ok _ =>
      let ev0 := [Event.osOpen p0, Event.progress 1 paths.length p0]
      if paths.length = 1 then (.ok true, ev0)
      else
        match w.findNew2 with
        | none => (.error ⟨"New Explorer window not found"⟩, ev0)
        | some hwnd =>
            (.ok true,
             ev0 ++ tier2Loop w (paths.drop 1) 2 paths.length
                 ++ (match rect with
                     | some r => [_apply_window_rect hwnd r]
                     | none => []))

/-- The per-path loop of `_open_tabs_separate` (opener_win.py lines
507-520): spawn each path in its own window, optionally locate the new
window and apply the rectangle (a locate timeout skips the rectangle,
non-fatally), report progress; a per-path exception yields one error
event and the loop continues. -/
def sepLoop (w : WinWorld) (rect : Option Rect) : List String → Nat → Nat → List Event
  | [], _, _ => []
  | p :: rest, i, n =>
      (match w.sepSpawn p with
       | .error e => [Event.osOpen p, Event.error p e.msg]
       | .ok _ =>
           [Event.osOpen p]
           ++ (match rect with
               | some r =>
                   (match w.findNewSep p with
                    | some hwnd => [_apply_window_rect hwnd r]
                    | none => [])
               | none => [])
           ++ [Event.progress i n p])
      ++ sepLoop w rect rest (i + 1) n

/-- Embedding of `_open_tabs_separate` (opener_win.py lines 500-521):
always returns `True`. -/
def _open_tabs_separate (w : WinWorld) (paths : List String) (rect : Option Rect) :
    Bool × List Event :=
  (true, sepLoop w rect paths 1 paths.length)

/-- Tiers 2 and 3 of the Windows `open_folders_as_tabs`: try the ctypes
SendInput tier; if it raises, run the separate-windows fallback.  `acc`
holds the events already emitted by tier 1. -/
def winBody2 (w : WinWorld) (dpaths : List String) (rect : Option Rect)
    (acc : List Event) : Bool × List Event :=
  match _open_tabs_ctypes w dpaths rect with
  | (.ok b, evs) => (b, acc ++ Event.tierStart 2 dpaths :: evs)
  | (.error _, evs2) =>
      let r := _open_tabs_separate w dpaths rect
      (r.1, acc ++ Event.tierStart 2 dpaths :: evs2
            ++ Event.fallbackStart dpaths :: r.2)

/-- The Windows tier cascade on the already-deduplicated path list: try
pywinauto UIA when available, fall through to SendInput on an exception,
and to separate windows on a further exception. -/
def winBody (w : WinWorld) (dpaths : List String) (rect : Option Rect) :
    Bool × List Event :=
  if w.pywinautoAvailable then
    match _open_tabs_pywinauto_uia w dpaths rect with
    | (.ok b, evs) => (b, Event.tierStart 1 dpaths :: evs)
    | (.error _, evs1) => winBody2 w dpaths rect (Event.tierStart 1 dpaths :: evs1)
  else winBody2 w dpaths rect []

/-- Embedding of the Windows `open_folders_as_tabs` (opener_win.py lines
256-294).  Empty input: `False` with no OS interaction.  Otherwise the
input list is deduplicated first (`list(dict.fromkeys(paths))`, keeping
first occurrences in order) and the tier cascade runs on the result. -/
def open_folders_as_tabs (w : WinWorld) (paths : List String) (rect : Option Rect) :
    Bool × List Event :=
  match paths with
  | [] => (false, [])
  | _ :: _ => winBody w (dictFromkeys paths) rect

end OpenerWin

/-- Whether every primary Windows tier fails on this batch: tier 1 is
unavailable or raises, and tier 2 raises — exactly the condition under
which the separate-windows fallback runs. -/
def winPrimaryFails (w : WinWorld) (paths : List String) (rect : Option Rect) : Bool :=
  let dp := dictFromkeys paths
  (!w.pywinautoAvailable
    || (match (OpenerWin._open_tabs_pywinauto_uia w dp rect).1 with
        | .error _ => true
        | .ok _ => false))
  && (match (OpenerWin._open_tabs_ctypes w dp rect).1 with
      | .error _ => true
      | .ok _ => false)

/-- Worlds for concrete evaluation: every external call succeeds except
that the AppleScript tier reports failure (macOS) and pywinauto is
unavailable while the SendInput tier's window wait times out (Windows),
so both calls exercise the separate-windows fallback. -/
def failMacWorld : MacWorld :=
  { expanduser := id
    runApplescript := fun _ => .ok (false, "some error")
    popenScript := fun _ => .ok ()
    lang := "en" }

def failWinWorld : WinWorld :=
  { pywinautoAvailable := false
    pywinautoImport := .ok ()
    normpath := id
    spawn1 := .ok ()
    findNew1 := some 1
    uiaConnect := .ok ()
    tier1PathStep := fun _ => .ok ()
    spawn2 := .ok ()
    findNew2 := none
    tier2PathStep := fun _ => .ok ()
    sepSpawn := fun _ => .ok ()
    findNewSep := fun _ => some 1 }

/-- The `current_index` values a per-path loop with step oracle `step`
delivers: position `i` (1-based within the loop's numbering) appears
exactly when the step for that path succeeds. -/
def stepIndices (step : String → Except PyExc Unit) : List String → Nat → List Nat
  | [], _ => []
  | p :: rest, i =>
      (match step p with
       | .ok _ => [i]
       | .error _ => []) ++ stepIndices step rest (i + 1)

/-- The progress events a per-path loop with step oracle `step` delivers:
exactly one event per successfully processed path, carrying that path's
1-based input position, in input order. -/
def stepProgressSpec (step : String → Except PyExc Unit) :
    List String → Nat → Nat → List Event
  | [], _, _ => []
  | p :: rest, i, n =>
      (match step p with
       | .ok _ => [Event.progress i n p]
       | .error _ => []) ++ stepProgressSpec step rest (i + 1) n

/-- Worlds in which every per-path step fails exactly on `"/bad"` with
message `"boom"` and succeeds elsewhere. -/
def badPathWinWorld : WinWorld :=
  { pywinautoAvailable := true
    pywinautoImport := .ok ()
    normpath := id
    spawn1 := .ok ()
    findNew1 := some 1
    uiaConnect := .ok ()
    tier1PathStep := fun q => if q = "/bad" then .error ⟨"boom"⟩ else .ok ()
    spawn2 := .ok ()
    findNew2 := some 1
    tier2PathStep := fun q => if q = "/bad" then .error ⟨"boom"⟩ else .ok ()
    sepSpawn := fun q => if q = "/bad" then .error ⟨"boom"⟩ else .ok ()
    findNewSep := fun _ => some 1 }

def badPathMacWorld : MacWorld :=
  { expanduser := id
    runApplescript := fun _ => .ok (true, "")
    popenScript := fun s =>
      if s = _build_open_window_script "/bad" none then .error ⟨"boom"⟩ else .ok ()
    lang := "en" }

/-- The all-OK Windows world in which pywinauto is unavailable and the
SendInput tier succeeds (used for concrete evaluation). -/
def demoWinWorld : WinWorld :=
  { pywinautoAvailable := false
    pywinautoImport := .ok ()
    normpath := id
    spawn1 := .ok ()
    findNew1 := some 1
    uiaConnect := .ok ()
    tier1PathStep := fun _ => .ok ()
    spawn2 := .ok ()
    findNew2 := some 1
    tier2PathStep := fun _ => .ok ()
    sepSpawn := fun _ => .ok ()
    findNewSep := fun _ => some 1 }

/-- A world whose AppleScript tier reports an accessibility-permission
failure (note the upper-case OS text). -/
def accMacWorld : MacWorld :=
  { expanduser := id
    runApplescript := fun _ => .ok (false, "Not authorized for ASSISTIVE access")
    popenScript := fun _ => .ok ()
    lang := "en" }

/-! ## Window-geometry clamping (C10) -/

/-- `FINDER_MIN_WIDTH` (gui.py line 485). -/
def FINDER_MIN_WIDTH : Int := 528

/-- `FINDER_MIN_HEIGHT` (gui.py line 486). -/
def FINDER_MIN_HEIGHT : Int := 308

/-- Embedding of `TabGroupSection._clamp_min` (gui.py lines 937-942). -/
def _clamp_min (value : Option Int) (minimum : Int) : Option Int :=
  match value with
  | none => none
  | some v => some (max v minimum)

/-- The geometry-saving step of `_save_geometry` (gui.py lines 906-927)
on already-parsed entry values: width and height are clamped to the
Finder/Explorer minimums, x and y are stored unchanged. -/
def _save_geometry (x y w h : Option Int) :
    Option Int × Option Int × Option Int × Option Int :=
  (x, y, _clamp_min w FINDER_MIN_WIDTH, _clamp_min h FINDER_MIN_HEIGHT)

/-- Embedding of `_get_window_rect` (gui.py lines 954-965): the rect
handed to the opener (and ultimately to `_apply_window_rect`) is the
saved geometry when all four components are present. -/
def _get_window_rect (x y w h : Option Int) : Option Rect :=
  match _save_geometry x y w h with
  | (some a, some b, some c, some d) => some (a, b, c, d)
  | _ => none

/-! Helper lemmas about the validator. -/

theorem validate_paths_eq_filter (w : FsWorld) (paths : List String) :
    validate_paths w paths
      = ((paths.filter (goodPath w)).map w.expanduser,
         paths.filter fun p => !(goodPath w p)) := by
  induction paths with
  | nil => rfl
  | cons p rest ih =>
      simp only [validate_paths, ih, goodPath, List.filter_cons]
      by_cases h : (is_unc_path (w.expanduser p) || w.isDir (w.expanduser p)) = true
      · simp [h]
      · simp [h]

theorem validatePathsConsults_not_unc (w : FsWorld) (paths : List String) :
    ∀ q ∈ validatePathsConsults w paths, is_unc_path q = false := by
  induction paths with
  | nil => intro q hq; simp [validatePathsConsults] at hq
  | cons p rest ih =>
      intro q hq
      simp only [validatePathsConsults, List.mem_append] at hq
      rcases hq with hq | hq
      · by_cases h : is_unc_path (w.expanduser p) = true
        · simp [h] at hq
        · simp [h] at hq
          simp [hq]
          simpa using h
      · exact ih q hq

/-- C4: a path whose home-expansion is UNC-style is classified valid by
`validate_paths` for every filesystem oracle (in particular one whose
existence check always reports false), it never lands in the invalid
list, and the directory-existence check is never consulted on any
UNC-style argument. -/
theorem C4_unc_bypasses_existence_check (w : FsWorld) (paths : List String) (p : String)
    (hu : is_unc_path (w.expanduser p) = true) (hp : p ∈ paths) :
    w.expanduser p ∈ (validate_paths w paths).1
    ∧ p ∉ (validate_paths w paths).2
    ∧ (∀ q ∈ validatePathsConsults w paths, is_unc_path q = false) := by
  have hchar := validate_paths_eq_filter w paths
  have hgood : goodPath w p = true := by simp [goodPath, hu]
  refine ⟨?_, ?_, validatePathsConsults_not_unc w paths⟩
  · rw [hchar]
    exact List.mem_map_of_mem w.expanduser (List.mem_filter.mpr ⟨hp, hgood⟩)
  · rw [hchar]
    intro hmem
    have := (List.mem_filter.mp hmem).2
    simp [hgood] at this

/-- C4 witness: with an existence check that always reports false, the
UNC path `//host/share` is still classified valid and the check is never
consulted on it. -/
theorem C4_unc_bypasses_existence_check_witness :
    let w : FsWorld := { expanduser := id, isDir := fun _ => false }
    "//host/share" ∈ (validate_paths w ["/tmp", "//host/share"]).1
    ∧ "//host/share" ∉ (validate_paths w ["/tmp", "//host/share"]).2 := by
  have h := C4_unc_bypasses_existence_check
    { expanduser := id, isDir := fun _ => false } ["/tmp", "//host/share"] "//host/share"
    (by decide) (by decide)
  exact ⟨h.1, h.2.1⟩

/-- C5: `validate_paths` expands the home shorthand before classifying,
keeps the input order and multiplicity in both output lists (valid paths
appear expanded, invalid ones as given), and returns `([], [])` on `[]`. -/
theorem C5_validate_paths_order_and_empty (w : FsWorld) (paths : List String) :
    validate_paths w paths
      = ((paths.filter (goodPath w)).map w.expanduser,
         paths.filter fun p => !(goodPath w p))
    ∧ validate_paths w [] = ([], []) :=
  ⟨validate_paths_eq_filter w paths, rfl⟩

/-! Helper lemmas about the escaping functions. -/

theorem replaceEsc_append (target : Char) (repl : List Char) (l₁ l₂ : List Char) :
    replaceEsc target repl (l₁ ++ l₂)
      = replaceEsc target repl l₁ ++ replaceEsc target repl l₂ := by
  induction l₁ with
  | nil => rfl
  | cons c rest ih => simp [replaceEsc, ih]

/-- The two sequential replaces of `_esc_applescript` act on each input
character independently: backslash ↦ `\\`, quote ↦ `\"`, others kept. -/
theorem escData_cons (c : Char) (rest : List Char) :
    replaceEsc '"' ['\\', '"'] (replaceEsc '\\' ['\\', '\\'] (c :: rest))
      = (if c = '\\' then ['\\', '\\'] else if c = '"' then ['\\', '"'] else [c])
        ++ replaceEsc '"' ['\\', '"'] (replaceEsc '\\' ['\\', '\\'] rest) := by
  by_cases h1 : c = '\\'
  · subst h1
    simp [replaceEsc, replaceEsc_append]
  · by_cases h2 : c = '"'
    · subst h2
      simp [replaceEsc, replaceEsc_append]
    · simp [replaceEsc, replaceEsc_append, h1, h2]

/-- Round trip: unescaping the escaped form by the AppleScript string
rules recovers the original character sequence. -/
theorem unescape_esc_roundtrip (l : List Char) :
    unescapeChars (replaceEsc '"' ['\\', '"'] (replaceEsc '\\' ['\\', '\\'] l)) = l := by
  induction l with
  | nil => rfl
  | cons c rest ih =>
      rw [escData_cons]
      by_cases h1 : c = '\\'
      · subst h1
        simpa [unescapeChars, unescChar] using ih
      · by_cases h2 : c = '"'
        · subst h2
          simpa [unescapeChars, unescChar] using ih
        · simp only [if_neg h1, if_neg h2, List.singleton_append]
          rw [unescapeChars.eq_def]
          simp [if_neg h1, ih]

/-- C7 (code_bug evidence): `_esc_applescript` escapes backslashes and
double quotes exactly as claimed and the escaped form unescapes back to
the original path, but — contrary to the claim and to the repository's
own test `test_strip_newlines` — newline and carriage-return characters
are NOT stripped: the failing input `"line1\nline2\rline3"` is returned
unchanged instead of as `"line1line2line3"`. -/
theorem C7_escaping_behavior :
    _esc_applescript "line1\nline2\rline3" = "line1\nline2\rline3"
    ∧ _esc_applescript "line1\nline2\rline3" ≠ "line1line2line3"
    ∧ '\n' ∈ (_esc_applescript "line1\nline2\rline3").data
    ∧ _esc_applescript "a\\b\"c" = "a\\\\b\\\"c"
    ∧ (∀ p : String, unescapeChars ((_esc_applescript p).data) = p.data)
    ∧ unescapeChars ((_esc_applescript "a\\b\"c").data) = "a\\b\"c".data := by
  refine ⟨by decide, by decide, by decide, by decide, ?_, by decide⟩
  intro p
  exact unescape_esc_roundtrip p.data

/-! Helper lemmas for line counting. -/

theorem string_ne_of_take5 {s t : String} (h : s.data.take 5 ≠ t.data.take 5) :
    s ≠ t := fun he => h (by rw [he])

theorem take5_append_left (s t : String) (h : 5 ≤ s.data.length) :
    (s ++ t).data.take 5 = s.data.take 5 := by
  rw [String.data_append]
  exact List.take_eq_left_iff.mpr (Or.inr h)

theorem makeWindowLine_ne_keystroke (p : String) : makeWindowLine p ≠ keystrokeLine := by
  apply string_ne_of_take5
  rw [makeWindowLine, take5_append_left _ _ (by decide)]
  decide

theorem makeWindowLine_ne_retryHeader (p : String) : makeWindowLine p ≠ retryHeaderLine := by
  apply string_ne_of_take5
  rw [makeWindowLine, take5_append_left _ _ (by decide)]
  decide

theorem boundsLine_ne_keystroke (r : Rect) : boundsLine r ≠ keystrokeLine := by
  apply string_ne_of_take5
  rw [boundsLine, take5_append_left _ _ (by decide)]
  decide

theorem boundsLine_ne_retryHeader (r : Rect) : boundsLine r ≠ retryHeaderLine := by
  apply string_ne_of_take5
  rw [boundsLine, take5_append_left _ _ (by decide)]
  decide

theorem setTargetLine_ne_keystroke (p : String) : setTargetLine p ≠ keystrokeLine := by
  apply string_ne_of_take5
  rw [setTargetLine, take5_append_left _ _ (by decide)]
  decide

theorem setTargetLine_ne_retryHeader (p : String) : setTargetLine p ≠ retryHeaderLine := by
  apply string_ne_of_take5
  rw [setTargetLine, take5_append_left _ _ (by decide)]
  decide

theorem count_keystroke_firstWindow (p : String) (rect : Option Rect) :
    (firstWindowLines p rect).count keystrokeLine = 0 := by
  cases rect with
  | none =>
      simp [firstWindowLines, List.count_cons, List.count_append,
        makeWindowLine_ne_keystroke p]
      decide
  | some r =>
      simp [firstWindowLines, List.count_cons, List.count_append,
        makeWindowLine_ne_keystroke p, boundsLine_ne_keystroke r]
      decide

theorem count_retry_firstWindow (p : String) (rect : Option Rect) :
    (firstWindowLines p rect).count retryHeaderLine = 0 := by
  cases rect with
  | none =>
      simp [firstWindowLines, List.count_cons, List.count_append,
        makeWindowLine_ne_retryHeader p]
      decide
  | some r =>
      simp [firstWindowLines, List.count_cons, List.count_append,
        makeWindowLine_ne_retryHeader p, boundsLine_ne_retryHeader r]
      decide

theorem count_keystroke_tabBlock (p : String) :
    (tabBlockLines p).count keystrokeLine = 1 := by
  simp [tabBlockLines, List.count_cons, setTargetLine_ne_keystroke p]
  decide

theorem count_retry_tabBlock (p : String) :
    (tabBlockLines p).count retryHeaderLine = 1 := by
  simp [tabBlockLines, List.count_cons, setTargetLine_ne_retryHeader p]
  decide

theorem count_keystroke_flatMap (rest : List String) :
    (rest.flatMap tabBlockLines).count keystrokeLine = rest.length := by
  induction rest with
  | nil => rfl
  | cons p ps ih =>
      simp [List.flatMap_cons, List.count_append, ih, count_keystroke_tabBlock p,
        Nat.add_comm]

theorem count_retry_flatMap (rest : List String) :
    (rest.flatMap tabBlockLines).count retryHeaderLine = rest.length := by
  induction rest with
  | nil => rfl
  | cons p ps ih =>
      simp [List.flatMap_cons, List.count_append, ih, count_retry_tabBlock p,
        Nat.add_comm]

/-- C8: the generated script contains the "new tab" keystroke directive
and the retry-loop header exactly `len(paths) - 1` times, and a
single-path invocation produces only the first-window block — no
keystroke and no retry loop at all. -/
theorem C8_keystroke_count (paths : List String) (rect : Option Rect) (q : String)
    (hne : paths ≠ []) :
    (_build_applescript_lines paths rect).count keystrokeLine = paths.length - 1
    ∧ (_build_applescript_lines paths rect).count retryHeaderLine = paths.length - 1
    ∧ _build_applescript_lines [q] rect = firstWindowLines q rect
    ∧ keystrokeLine ∉ firstWindowLines q rect
    ∧ retryHeaderLine ∉ firstWindowLines q rect := by
  obtain ⟨p0, rest, rfl⟩ := List.exists_cons_of_ne_nil hne
  refine ⟨?_, ?_, by simp [_build_applescript_lines], ?_, ?_⟩
  · simp [_build_applescript_lines, List.count_append,
      count_keystroke_firstWindow p0 rect, count_keystroke_flatMap rest]
  · simp [_build_applescript_lines, List.count_append,
      count_retry_firstWindow p0 rect, count_retry_flatMap rest]
  · intro hmem
    have := List.count_pos_iff.mpr hmem
    rw [count_keystroke_firstWindow q rect] at this
    exact absurd this (by decide)
  · intro hmem
    have := List.count_pos_iff.mpr hmem
    rw [count_retry_firstWindow q rect] at this
    exact absurd this (by decide)

/-- C8 witness: a two-path script has exactly one keystroke directive
and one retry loop; a one-path script has none. -/
theorem C8_keystroke_count_witness :
    (_build_applescript_lines ["/a", "/b"] none).count keystrokeLine = 1
    ∧ (_build_applescript_lines ["/a"] none).count keystrokeLine = 0 := by
  have h2 := C8_keystroke_count ["/a", "/b"] none "/q" (by decide)
  have h1 := C8_keystroke_count ["/a"] none "/q" (by decide)
  exact ⟨h2.1, h1.1⟩

/-! ## Tier-level helper lemmas -/

theorem tier1_ok_true (w : WinWorld) (ps : List String) (rect : Option Rect) (b : Bool)
    (evs : List Event)
    (h : OpenerWin._open_tabs_pywinauto_uia w ps rect = (.ok b, evs)) : b = true := by
  simp only [OpenerWin._open_tabs_pywinauto_uia] at h
  repeat' split at h
  all_goals simp_all

theorem tier2_ok_true (w : WinWorld) (ps : List String) (rect : Option Rect) (b : Bool)
    (evs : List Event)
    (h : OpenerWin._open_tabs_ctypes w ps rect = (.ok b, evs)) : b = true := by
  simp only [OpenerWin._open_tabs_ctypes] at h
  repeat' split at h
  all_goals simp_all

@[simp] theorem fallbackCalls_nil : fallbackCalls [] = [] := rfl

@[simp] theorem fallbackCalls_cons_progress (i n : Nat) (p : String) (evs : List Event) :
    fallbackCalls (Event.progress i n p :: evs) = fallbackCalls evs := rfl

@[simp] theorem fallbackCalls_cons_error (p m : String) (evs : List Event) :
    fallbackCalls (Event.error p m :: evs) = fallbackCalls evs := rfl

@[simp] theorem fallbackCalls_cons_osOpen (p : String) (evs : List Event) :
    fallbackCalls (Event.osOpen p :: evs) = fallbackCalls evs := rfl

@[simp] theorem fallbackCalls_cons_applyRect (h : Nat) (r : Rect) (evs : List Event) :
    fallbackCalls (Event.applyRect h r :: evs) = fallbackCalls evs := rfl

@[simp] theorem fallbackCalls_cons_tierStart (k : Nat) (ps : List String)
    (evs : List Event) :
    fallbackCalls (Event.tierStart k ps :: evs) = fallbackCalls evs := rfl

@[simp] theorem fallbackCalls_cons_fallbackStart (ps : List String) (evs : List Event) :
    fallbackCalls (Event.fallbackStart ps :: evs) = ps :: fallbackCalls evs := rfl

@[simp] theorem fallbackCalls_append (a b : List Event) :
    fallbackCalls (a ++ b) = fallbackCalls a ++ fallbackCalls b := by
  simp [fallbackCalls]

theorem fallbackCalls_tier1Loop (w : WinWorld) (ps : List String) (i n : Nat) :
    fallbackCalls (OpenerWin.tier1Loop w ps i n) = [] := by
  induction ps generalizing i with
  | nil => rfl
  | cons p rest ih =>
      cases h : w.tier1PathStep p <;>
        simp [OpenerWin.tier1Loop, h, ih]

theorem fallbackCalls_tier2Loop (w : WinWorld) (ps : List String) (i n : Nat) :
    fallbackCalls (OpenerWin.tier2Loop w ps i n) = [] := by
  induction ps generalizing i with
  | nil => rfl
  | cons p rest ih =>
      cases h : w.tier2PathStep p <;>
        simp [OpenerWin.tier2Loop, h, ih]

theorem fallbackCalls_sepLoopWin (w : WinWorld) (rect : Option Rect) (ps : List String)
    (i n : Nat) : fallbackCalls (OpenerWin.sepLoop w rect ps i n) = [] := by
  induction ps generalizing i with
  | nil => rfl
  | cons p rest ih =>
      cases h : w.sepSpawn p
      · simp [OpenerWin.sepLoop, h, ih]
      · cases rect with
        | none => simp [OpenerWin.sepLoop, h, ih]
        | some r =>
            cases hf : w.findNewSep p <;>
              simp [OpenerWin.sepLoop, h, hf, _apply_window_rect, ih]

theorem fallbackCalls_sepLoopMac (w : MacWorld) (rect : Option Rect) (ps : List String)
    (i n : Nat) : fallbackCalls (OpenerMac.sepLoop w rect ps i n) = [] := by
  induction ps generalizing i with
  | nil => rfl
  | cons p rest ih =>
      cases h : w.popenScript (_build_open_window_script p rect) <;>
        simp [OpenerMac.sepLoop, h, ih]

theorem fallbackCalls_enumProgress (ps : List String) (i n : Nat) :
    fallbackCalls (OpenerMac.enumProgress ps i n) = [] := by
  induction ps generalizing i with
  | nil => rfl
  | cons p rest ih => simp [OpenerMac.enumProgress, ih]

theorem fallbackCalls_tier1 (w : WinWorld) (ps : List String) (rect : Option Rect) :
    fallbackCalls (OpenerWin._open_tabs_pywinauto_uia w ps rect).2 = [] := by
  simp only [OpenerWin._open_tabs_pywinauto_uia]
  repeat' split
  all_goals simp [fallbackCalls_tier1Loop, _apply_window_rect]

theorem fallbackCalls_tier2 (w : WinWorld) (ps : List String) (rect : Option Rect) :
    fallbackCalls (OpenerWin._open_tabs_ctypes w ps rect).2 = [] := by
  simp only [OpenerWin._open_tabs_ctypes]
  repeat' split
  all_goals simp [fallbackCalls_tier2Loop, _apply_window_rect]

/-- The Windows result/fallback facts, factored for reuse in C1. -/
theorem winOpen_props (ww : WinWorld) (paths : List String) (rect : Option Rect)
    (hne : paths ≠ []) :
    (OpenerWin.open_folders_as_tabs ww paths rect).1 = true
    ∧ (winPrimaryFails ww paths rect = true →
        fallbackCalls (OpenerWin.open_folders_as_tabs ww paths rect).2
          = [dictFromkeys paths])
    ∧ (winPrimaryFails ww paths rect = false →
        fallbackCalls (OpenerWin.open_folders_as_tabs ww paths rect).2 = []) := by
  obtain ⟨p0, rest, rfl⟩ := List.exists_cons_of_ne_nil hne
  simp only [OpenerWin.open_folders_as_tabs, winPrimaryFails]
  set dp := dictFromkeys (p0 :: rest) with hdp
  by_cases hav : ww.pywinautoAvailable
  · cases h1 : OpenerWin._open_tabs_pywinauto_uia ww dp rect with
    | mk r1 evs1 =>
        cases r1 with
        | ok b =>
            have hb := tier1_ok_true ww dp rect b evs1 h1
            subst hb
            have hfb1 : fallbackCalls evs1 = [] := by
              have := fallbackCalls_tier1 ww dp rect
              rw [h1] at this
              exact this
            simp [OpenerWin.winBody, hav, h1, hfb1]
        | error e =>
            cases h2 : OpenerWin._open_tabs_ctypes ww dp rect with
            | mk r2 evs2 =>
                have hfb1 : fallbackCalls evs1 = [] := by
                  have := fallbackCalls_tier1 ww dp rect
                  rw [h1] at this
                  exact this
                have hfb2 : fallbackCalls evs2 = [] := by
                  have := fallbackCalls_tier2 ww dp rect
                  rw [h2] at this
                  exact this
                cases r2 with
                | ok b2 =>
                    have hb2 := tier2_ok_true ww dp rect b2 evs2 h2
                    subst hb2
                    simp [OpenerWin.winBody, OpenerWin.winBody2, hav, h1, h2,
                      hfb1, hfb2]
                | error e2 =>
                    simp [OpenerWin.winBody, OpenerWin.winBody2, hav, h1, h2,
                      OpenerWin._open_tabs_separate, hfb1, hfb2,
                      fallbackCalls_sepLoopWin]
  · cases h2 : OpenerWin._open_tabs_ctypes ww dp rect with
    | mk r2 evs2 =>
        have hfb2 : fallbackCalls evs2 = [] := by
          have := fallbackCalls_tier2 ww dp rect
          rw [h2] at this
          exact this
        cases r2 with
        | ok b2 =>
            have hb2 := tier2_ok_true ww dp rect b2 evs2 h2
            subst hb2
            simp [OpenerWin.winBody, OpenerWin.winBody2, hav, h2, hfb2]
        | error e2 =>
            simp [OpenerWin.winBody, OpenerWin.winBody2, hav, h2,
              OpenerWin._open_tabs_separate, hfb2, fallbackCalls_sepLoopWin]

/-- The macOS result/fallback facts, factored for reuse in C1. -/
theorem macOpen_props (wm : MacWorld) (paths : List String) (rect : Option Rect)
    (hne : paths ≠ []) :
    (OpenerMac.open_folders_as_tabs wm paths rect).1 = true
    ∧ (macPrimaryFails wm paths rect = true →
        fallbackCalls (OpenerMac.open_folders_as_tabs wm paths rect).2
          = [paths.map wm.expanduser])
    ∧ (macPrimaryFails wm paths rect = false →
        fallbackCalls (OpenerMac.open_folders_as_tabs wm paths rect).2 = []) := by
  obtain ⟨p0, rest, rfl⟩ := List.exists_cons_of_ne_nil hne
  simp only [OpenerMac.open_folders_as_tabs, macPrimaryFails]
  cases hrun : wm.runApplescript (_build_applescript ((p0 :: rest).map wm.expanduser) rect) with
  | ok pr =>
      cases pr with
      | mk success errMsg =>
          cases success with
          | true =>
              simp [hrun, fallbackCalls_enumProgress]
          | false =>
              simp [hrun, OpenerMac._open_separate, fallbackCalls_sepLoopMac]
  | error e =>
      simp [hrun, OpenerMac._open_separate, fallbackCalls_sepLoopMac]

/-- C1: on both platforms `open_folders_as_tabs([])` returns `False`
with no OS interaction (an empty event trace); a non-empty call returns
`True`; when the primary tier(s) raise or report failure the
separate-windows fallback is invoked exactly once, with the full
expanded list on macOS and the full deduplicated list on Windows (and
never invoked when a primary tier succeeds); and the separate-windows
tier itself always returns `True`. -/
theorem C1_empty_false_nonempty_true_fallback_once (wm : MacWorld) (ww : WinWorld)
    (paths sps : List String) (rect : Option Rect) (hne : paths ≠ []) :
    OpenerMac.open_folders_as_tabs wm [] rect = (false, [])
    ∧ OpenerWin.open_folders_as_tabs ww [] rect = (false, [])
    ∧ (OpenerMac.open_folders_as_tabs wm paths rect).1 = true
    ∧ (OpenerWin.open_folders_as_tabs ww paths rect).1 = true
    ∧ (macPrimaryFails wm paths rect = true →
        fallbackCalls (OpenerMac.open_folders_as_tabs wm paths rect).2
          = [paths.map wm.expanduser])
    ∧ (macPrimaryFails wm paths rect = false →
        fallbackCalls (OpenerMac.open_folders_as_tabs wm paths rect).2 = [])
    ∧ (winPrimaryFails ww paths rect = true →
        fallbackCalls (OpenerWin.open_folders_as_tabs ww paths rect).2
          = [dictFromkeys paths])
    ∧ (winPrimaryFails ww paths rect = false →
        fallbackCalls (OpenerWin.open_folders_as_tabs ww paths rect).2 = [])
    ∧ (OpenerMac._open_separate wm sps rect).1 = true
    ∧ (OpenerWin._open_tabs_separate ww sps rect).1 = true := by
  have hm := macOpen_props wm paths rect hne
  have hw := winOpen_props ww paths rect hne
  exact ⟨rfl, rfl, hm.1, hw.1, hm.2.1, hm.2.2, hw.2.1, hw.2.2, rfl, rfl⟩

/-- C1 witness: at concrete failing worlds with paths `["/a", "/b"]`,
both calls return `True`, and each invokes the fallback exactly once on
the full list. -/
theorem C1_empty_false_nonempty_true_fallback_once_witness :
    (OpenerMac.open_folders_as_tabs failMacWorld ["/a", "/b"] none).1 = true
    ∧ fallbackCalls (OpenerMac.open_folders_as_tabs failMacWorld ["/a", "/b"] none).2
        = [["/a", "/b"]]
    ∧ (OpenerWin.open_folders_as_tabs failWinWorld ["/a", "/b"] none).1 = true
    ∧ fallbackCalls (OpenerWin.open_folders_as_tabs failWinWorld ["/a", "/b"] none).2
        = [["/a", "/b"]] := by
  have h := C1_empty_false_nonempty_true_fallback_once failMacWorld failWinWorld
    ["/a", "/b"] ["/x"] none (by decide)
  refine ⟨h.2.2.1, ?_, h.2.2.2.1, ?_⟩
  · have := h.2.2.2.2.1 (by decide)
    simpa using this
  · have := h.2.2.2.2.2.2.1 (by decide)
    simpa using this

/-! ## Progress-event lemmas (C2) -/

@[simp] theorem progressIndices_nil : progressIndices [] = [] := rfl

@[simp] theorem progressIndices_cons_progress (i n : Nat) (p : String) (evs : List Event) :
    progressIndices (Event.progress i n p :: evs) = i :: progressIndices evs := rfl

@[simp] theorem progressIndices_cons_error (p m : String) (evs : List Event) :
    progressIndices (Event.error p m :: evs) = progressIndices evs := rfl

@[simp] theorem progressIndices_cons_osOpen (p : String) (evs : List Event) :
    progressIndices (Event.osOpen p :: evs) = progressIndices evs := rfl

@[simp] theorem progressIndices_cons_applyRect (h : Nat) (r : Rect) (evs : List Event) :
    progressIndices (Event.applyRect h r :: evs) = progressIndices evs := rfl

@[simp] theorem progressIndices_cons_tierStart (k : Nat) (ps : List String)
    (evs : List Event) :
    progressIndices (Event.tierStart k ps :: evs) = progressIndices evs := rfl

@[simp] theorem progressIndices_cons_fallbackStart (ps : List String) (evs : List Event) :
    progressIndices (Event.fallbackStart ps :: evs) = progressIndices evs := rfl

@[simp] theorem progressIndices_append (a b : List Event) :
    progressIndices (a ++ b) = progressIndices a ++ progressIndices b := by
  simp [progressIndices]

@[simp] theorem progressOnly_nil : progressOnly [] = [] := rfl

@[simp] theorem progressOnly_cons_progress (i n : Nat) (p : String) (evs : List Event) :
    progressOnly (Event.progress i n p :: evs) = Event.progress i n p :: progressOnly evs :=
  rfl

@[simp] theorem progressOnly_cons_error (p m : String) (evs : List Event) :
    progressOnly (Event.error p m :: evs) = progressOnly evs := rfl

@[simp] theorem progressOnly_cons_osOpen (p : String) (evs : List Event) :
    progressOnly (Event.osOpen p :: evs) = progressOnly evs := rfl

@[simp] theorem progressOnly_cons_applyRect (h : Nat) (r : Rect) (evs : List Event) :
    progressOnly (Event.applyRect h r :: evs) = progressOnly evs := rfl

@[simp] theorem progressOnly_cons_tierStart (k : Nat) (ps : List String)
    (evs : List Event) :
    progressOnly (Event.tierStart k ps :: evs) = progressOnly evs := rfl

@[simp] theorem progressOnly_cons_fallbackStart (ps : List String) (evs : List Event) :
    progressOnly (Event.fallbackStart ps :: evs) = progressOnly evs := rfl

@[simp] theorem progressOnly_append (a b : List Event) :
    progressOnly (a ++ b) = progressOnly a ++ progressOnly b := by
  simp [progressOnly]

theorem stepIndices_ge (step : String → Except PyExc Unit) (ps : List String) :
    ∀ i, ∀ x ∈ stepIndices step ps i, i ≤ x := by
  induction ps with
  | nil => intro i x hx; simp [stepIndices] at hx
  | cons p rest ih =>
      intro i x hx
      cases h : step p <;> simp [stepIndices, h] at hx
      · have := ih (i + 1) x hx
        omega
      · rcases hx with rfl | hx
        · omega
        · have := ih (i + 1) x hx
          omega

theorem chain_lt_stepIndices (step : String → Except PyExc Unit) (ps : List String)
    (i : Nat) : List.Chain' (· < ·) (stepIndices step ps i) := by
  induction ps generalizing i with
  | nil => simp [stepIndices]
  | cons p rest ih =>
      cases h : step p with
      | error e => simpa [stepIndices, h] using ih (i + 1)
      | ok u =>
          simp only [stepIndices, h, List.singleton_append]
          rw [List.chain'_cons']
          refine ⟨?_, ih (i + 1)⟩
          intro y hy
          have := stepIndices_ge step rest (i + 1) y (List.mem_of_mem_head? hy)
          omega

theorem progressIndices_tier1Loop (w : WinWorld) (ps : List String) (i n : Nat) :
    progressIndices (OpenerWin.tier1Loop w ps i n) = stepIndices w.tier1PathStep ps i := by
  induction ps generalizing i with
  | nil => rfl
  | cons p rest ih =>
      cases h : w.tier1PathStep p <;>
        simp [OpenerWin.tier1Loop, stepIndices, h, ih]

theorem progressIndices_tier2Loop (w : WinWorld) (ps : List String) (i n : Nat) :
    progressIndices (OpenerWin.tier2Loop w ps i n) = stepIndices w.tier2PathStep ps i := by
  induction ps generalizing i with
  | nil => rfl
  | cons p rest ih =>
      cases h : w.tier2PathStep p <;>
        simp [OpenerWin.tier2Loop, stepIndices, h, ih]

theorem progressIndices_sepLoopWin (w : WinWorld) (rect : Option Rect) (ps : List String)
    (i n : Nat) :
    progressIndices (OpenerWin.sepLoop w rect ps i n) = stepIndices w.sepSpawn ps i := by
  induction ps generalizing i with
  | nil => rfl
  | cons p rest ih =>
      cases h : w.sepSpawn p
      · simp [OpenerWin.sepLoop, stepIndices, h, ih]
      · cases rect with
        | none => simp [OpenerWin.sepLoop, stepIndices, h, ih]
        | some r =>
            cases hf : w.findNewSep p <;>
              simp [OpenerWin.sepLoop, stepIndices, h, hf, _apply_window_rect, ih]

theorem progressIndices_sepLoopMac (w : MacWorld) (rect : Option Rect) (ps : List String)
    (i n : Nat) :
    progressIndices (OpenerMac.sepLoop w rect ps i n)
      = stepIndices (fun p => w.popenScript (_build_open_window_script p rect)) ps i := by
  induction ps generalizing i with
  | nil => rfl
  | cons p rest ih =>
      cases h : w.popenScript (_build_open_window_script p rect) <;>
        simp [OpenerMac.sepLoop, stepIndices, h, ih]

theorem progressIndices_enumProgress (ps : List String) (i n : Nat) :
    progressIndices (OpenerMac.enumProgress ps i n)
      = stepIndices (fun _ => .ok ()) ps i := by
  induction ps generalizing i with
  | nil => rfl
  | cons p rest ih => simp [OpenerMac.enumProgress, stepIndices, ih]

/-- Within one tier-1 run, the delivered progress indices are
1-indexed and strictly increasing. -/
theorem tier1_progress_props (w : WinWorld) (ps : List String) (rect : Option Rect) :
    List.Chain' (· < ·) (progressIndices (OpenerWin._open_tabs_pywinauto_uia w ps rect).2)
    ∧ ∀ x ∈ progressIndices (OpenerWin._open_tabs_pywinauto_uia w ps rect).2, 1 ≤ x := by
  simp only [OpenerWin._open_tabs_pywinauto_uia]
  cases w.pywinautoImport with
  | error e => simp
  | ok _ =>
      cases w.spawn1 with
      | error e => simp
      | ok _ =>
          cases w.findNew1 with
          | none => simp
          | some hwnd =>
              by_cases hlen : ps.length = 1
              · simp [hlen]
              · cases w.uiaConnect with
                | error e => simp [hlen]
                | ok _ =>
                    have hrect : progressIndices
                        (match rect with
                         | some r => [_apply_window_rect hwnd r]
                         | none => []) = [] := by
                      cases rect <;> simp [_apply_window_rect]
                    simp only [hlen, if_false, hrect, progressIndices_append,
                      progressIndices_cons_osOpen, progressIndices_cons_progress,
                      progressIndices_tier1Loop, progressIndices_nil,
                      List.append_nil, List.nil_append, List.singleton_append]
                    constructor
                    · rw [List.chain'_cons']
                      refine ⟨?_, chain_lt_stepIndices _ _ 2⟩
                      intro y hy
                      have := stepIndices_ge w.tier1PathStep (ps.drop 1) 2 y
                        (List.mem_of_mem_head? hy)
                      omega
                    · intro x hx
                      rcases List.mem_cons.mp hx with rfl | hx
                      · omega
                      · have := stepIndices_ge w.tier1PathStep (ps.drop 1) 2 x hx
                        omega

/-- Within one tier-2 run, the delivered progress indices are
1-indexed and strictly increasing. -/
theorem tier2_progress_props (w : WinWorld) (ps : List String) (rect : Option Rect) :
    List.Chain' (· < ·) (progressIndices (OpenerWin._open_tabs_ctypes w ps rect).2)
    ∧ ∀ x ∈ progressIndices (OpenerWin._open_tabs_ctypes w ps rect).2, 1 ≤ x := by
  simp only [OpenerWin._open_tabs_ctypes]
  cases w.spawn2 with
  | error e => simp
  | ok _ =>
      by_cases hlen : ps.length = 1
      · simp [hlen]
      · cases w.findNew2 with
        | none => simp [hlen]
        | some hwnd =>
            have hrect : progressIndices
                (match rect with
                 | some r => [_apply_window_rect hwnd r]
                 | none => []) = [] := by
              cases rect <;> simp [_apply_window_rect]
            simp only [hlen, if_false, hrect, progressIndices_append,
              progressIndices_cons_osOpen, progressIndices_cons_progress,
              progressIndices_tier2Loop, progressIndices_nil,
              List.append_nil, List.nil_append, List.singleton_append]
            constructor
            · rw [List.chain'_cons']
              refine ⟨?_, chain_lt_stepIndices _ _ 2⟩
              intro y hy
              have := stepIndices_ge w.tier2PathStep (ps.drop 1) 2 y
                (List.mem_of_mem_head? hy)
              omega
            · intro x hx
              rcases List.mem_cons.mp hx with rfl | hx
              · omega
              · have := stepIndices_ge w.tier2PathStep (ps.drop 1) 2 x hx
                omega

/-- Over a whole Windows call, the progress indices decompose into at
most three per-tier runs, each strictly increasing, all 1-indexed. -/
theorem winFull_progress_props (ww : WinWorld) (paths : List String) (rect : Option Rect) :
    (∃ t1 t2 t3 : List Nat,
        progressIndices (OpenerWin.open_folders_as_tabs ww paths rect).2 = t1 ++ t2 ++ t3
        ∧ List.Chain' (· < ·) t1 ∧ List.Chain' (· < ·) t2 ∧ List.Chain' (· < ·) t3)
    ∧ ∀ x ∈ progressIndices (OpenerWin.open_folders_as_tabs ww paths rect).2, 1 ≤ x := by
  cases paths with
  | nil => exact ⟨⟨[], [], [], by simp [OpenerWin.open_folders_as_tabs], by simp, by simp,
      by simp⟩, by simp [OpenerWin.open_folders_as_tabs]⟩
  | cons p0 rest =>
      simp only [OpenerWin.open_folders_as_tabs]
      set dp := dictFromkeys (p0 :: rest) with hdp
      by_cases hav : ww.pywinautoAvailable
      · cases h1 : OpenerWin._open_tabs_pywinauto_uia ww dp rect with
        | mk r1 evs1 =>
            have hp1 := tier1_progress_props ww dp rect
            rw [h1] at hp1
            cases r1 with
            | ok b =>
                refine ⟨⟨progressIndices evs1, [], [], ?_, hp1.1, by simp, by simp⟩, ?_⟩
                · simp [OpenerWin.winBody, hav, h1]
                · intro x hx
                  simp [OpenerWin.winBody, hav, h1] at hx
                  exact hp1.2 x hx
            | error e =>
                cases h2 : OpenerWin._open_tabs_ctypes ww dp rect with
                | mk r2 evs2 =>
                    have hp2 := tier2_progress_props ww dp rect
                    rw [h2] at hp2
                    cases r2 with
                    | ok b2 =>
                        refine ⟨⟨progressIndices evs1, progressIndices evs2, [], ?_,
                          hp1.1, hp2.1, by simp⟩, ?_⟩
                        · simp [OpenerWin.winBody, OpenerWin.winBody2, hav, h1, h2]
                        · intro x hx
                          simp [OpenerWin.winBody, OpenerWin.winBody2, hav, h1, h2] at hx
                          rcases hx with hx | hx
                          · exact hp1.2 x hx
                          · exact hp2.2 x hx
                    | error e2 =>
                        refine ⟨⟨progressIndices evs1, progressIndices evs2,
                          stepIndices ww.sepSpawn dp 1, ?_, hp1.1, hp2.1,
                          chain_lt_stepIndices _ _ 1⟩, ?_⟩
                        · simp [OpenerWin.winBody, OpenerWin.winBody2, hav, h1, h2,
                            OpenerWin._open_tabs_separate, progressIndices_sepLoopWin]
                        · intro x hx
                          simp [OpenerWin.winBody, OpenerWin.winBody2, hav, h1, h2,
                            OpenerWin._open_tabs_separate,
                            progressIndices_sepLoopWin] at hx
                          rcases hx with hx | hx | hx
                          · exact hp1.2 x hx
                          · exact hp2.2 x hx
                          · exact stepIndices_ge ww.sepSpawn dp 1 x hx
      · cases h2 : OpenerWin._open_tabs_ctypes ww dp rect with
        | mk r2 evs2 =>
            have hp2 := tier2_progress_props ww dp rect
            rw [h2] at hp2
            cases r2 with
            | ok b2 =>
                refine ⟨⟨progressIndices evs2, [], [], ?_, hp2.1, by simp, by simp⟩, ?_⟩
                · simp [OpenerWin.winBody, OpenerWin.winBody2, hav, h2]
                · intro x hx
                  simp [OpenerWin.winBody, OpenerWin.winBody2, hav, h2] at hx
                  exact hp2.2 x hx
            | error e2 =>
                refine ⟨⟨progressIndices evs2, stepIndices ww.sepSpawn dp 1, [], ?_,
                  hp2.1, chain_lt_stepIndices _ _ 1, by simp⟩, ?_⟩
                · simp [OpenerWin.winBody, OpenerWin.winBody2, hav, h2,
                    OpenerWin._open_tabs_separate, progressIndices_sepLoopWin]
                · intro x hx
                  simp [OpenerWin.winBody, OpenerWin.winBody2, hav, h2,
                    OpenerWin._open_tabs_separate, progressIndices_sepLoopWin] at hx
                  rcases hx with hx | hx
                  · exact hp2.2 x hx
                  · exact stepIndices_ge ww.sepSpawn dp 1 x hx

/-- Over a whole macOS call, the progress indices decompose into at most
two per-tier runs, each strictly increasing, all 1-indexed. -/
theorem macFull_progress_props (wm : MacWorld) (paths : List String) (rect : Option Rect) :
    (∃ s1 s2 : List Nat,
        progressIndices (OpenerMac.open_folders_as_tabs wm paths rect).2 = s1 ++ s2
        ∧ List.Chain' (· < ·) s1 ∧ List.Chain' (· < ·) s2)
    ∧ ∀ x ∈ progressIndices (OpenerMac.open_folders_as_tabs wm paths rect).2, 1 ≤ x := by
  cases paths with
  | nil => exact ⟨⟨[], [], by simp [OpenerMac.open_folders_as_tabs], by simp, by simp⟩,
      by simp [OpenerMac.open_folders_as_tabs]⟩
  | cons p0 rest =>
      simp only [OpenerMac.open_folders_as_tabs]
      cases hrun : wm.runApplescript
          (_build_applescript ((p0 :: rest).map wm.expanduser) rect) with
      | ok pr =>
          cases pr with
          | mk success errMsg =>
              cases success with
              | true =>
                  refine ⟨⟨stepIndices (fun _ => .ok ()) ((p0 :: rest).map wm.expanduser) 1,
                    [], ?_, chain_lt_stepIndices _ _ 1, by simp⟩, ?_⟩
                  · simp [hrun, progressIndices_enumProgress]
                  · intro x hx
                    simp [hrun, progressIndices_enumProgress] at hx
                    exact stepIndices_ge _ _ 1 x hx
              | false =>
                  refine ⟨⟨[],
                    stepIndices (fun p => wm.popenScript (_build_open_window_script p rect))
                      ((p0 :: rest).map wm.expanduser) 1, ?_,
                    by simp, chain_lt_stepIndices _ _ 1⟩, ?_⟩
                  · simp [hrun, OpenerMac._open_separate, progressIndices_sepLoopMac]
                  · intro x hx
                    simp [hrun, OpenerMac._open_separate,
                      progressIndices_sepLoopMac] at hx
                    exact stepIndices_ge _ _ 1 x hx
      | error e =>
          refine ⟨⟨[],
            stepIndices (fun p => wm.popenScript (_build_open_window_script p rect))
              ((p0 :: rest).map wm.expanduser) 1, ?_,
            by simp, chain_lt_stepIndices _ _ 1⟩, ?_⟩
          · simp [hrun, OpenerMac._open_separate, progressIndices_sepLoopMac]
          · intro x hx
            simp [hrun, OpenerMac._open_separate, progressIndices_sepLoopMac] at hx
            exact stepIndices_ge _ _ 1 x hx

theorem progressOnly_sepLoopWin (w : WinWorld) (rect : Option Rect) (ps : List String)
    (i n : Nat) :
    progressOnly (OpenerWin.sepLoop w rect ps i n) = stepProgressSpec w.sepSpawn ps i n := by
  induction ps generalizing i with
  | nil => rfl
  | cons p rest ih =>
      cases h : w.sepSpawn p
      · simp [OpenerWin.sepLoop, stepProgressSpec, h, ih]
      · cases rect with
        | none => simp [OpenerWin.sepLoop, stepProgressSpec, h, ih]
        | some r =>
            cases hf : w.findNewSep p <;>
              simp [OpenerWin.sepLoop, stepProgressSpec, h, hf, _apply_window_rect, ih]

theorem progressOnly_sepLoopMac (w : MacWorld) (rect : Option Rect) (ps : List String)
    (i n : Nat) :
    progressOnly (OpenerMac.sepLoop w rect ps i n)
      = stepProgressSpec (fun p => w.popenScript (_build_open_window_script p rect)) ps i n := by
  induction ps generalizing i with
  | nil => rfl
  | cons p rest ih =>
      cases h : w.popenScript (_build_open_window_script p rect) <;>
        simp [OpenerMac.sepLoop, stepProgressSpec, h, ih]

/-- C2 (amended): the `current_index` values delivered by
`open_folders_as_tabs` are 1-indexed and strictly monotonically
increasing WITHIN each tier's run, with exactly one progress event per
successfully processed path in input order (after Windows-side
deduplication); on a tier fallback the numbering restarts at 1, so the
whole-call sequence is a concatenation of at most three (Windows) / two
(macOS) strictly increasing runs, not one globally increasing run. -/
theorem C2_amended_progress_per_tier (ww : WinWorld) (wm : MacWorld)
    (paths : List String) (rect : Option Rect) :
    (∃ t1 t2 t3 : List Nat,
        progressIndices (OpenerWin.open_folders_as_tabs ww paths rect).2 = t1 ++ t2 ++ t3
        ∧ List.Chain' (· < ·) t1 ∧ List.Chain' (· < ·) t2 ∧ List.Chain' (· < ·) t3)
    ∧ (∀ x ∈ progressIndices (OpenerWin.open_folders_as_tabs ww paths rect).2, 1 ≤ x)
    ∧ (∃ s1 s2 : List Nat,
        progressIndices (OpenerMac.open_folders_as_tabs wm paths rect).2 = s1 ++ s2
        ∧ List.Chain' (· < ·) s1 ∧ List.Chain' (· < ·) s2)
    ∧ (∀ x ∈ progressIndices (OpenerMac.open_folders_as_tabs wm paths rect).2, 1 ≤ x)
    ∧ progressOnly (OpenerWin._open_tabs_separate ww paths rect).2
        = stepProgressSpec ww.sepSpawn paths 1 paths.length
    ∧ progressOnly (OpenerMac._open_separate wm paths rect).2
        = stepProgressSpec (fun p => wm.popenScript (_build_open_window_script p rect))
            paths 1 paths.length := by
  have hw := winFull_progress_props ww paths rect
  have hm := macFull_progress_props wm paths rect
  exact ⟨hw.1, hw.2, hm.1, hm.2, progressOnly_sepLoopWin ww rect paths 1 paths.length,
    progressOnly_sepLoopMac wm rect paths 1 paths.length⟩

/-- C2 counterexample: at a concrete world where the SendInput tier
emits progress for the first path and then times out waiting for the
new Explorer window, the whole-call index sequence is `[1, 1, 2]` — the
fallback restarts at 1, so the sequence claimed to be strictly
monotonically increasing over the whole call is not. -/
theorem C2_counterexample_duplicate_index :
    progressIndices (OpenerWin.open_folders_as_tabs failWinWorld ["/a", "/b"] none).2
      = [1, 1, 2]
    ∧ ¬ List.Chain' (· < ·)
        (progressIndices (OpenerWin.open_folders_as_tabs failWinWorld ["/a", "/b"] none).2) := by
  have h1 : progressIndices
      (OpenerWin.open_folders_as_tabs failWinWorld ["/a", "/b"] none).2 = [1, 1, 2] := by
    decide
  refine ⟨h1, ?_⟩
  rw [h1]
  intro hc
  have h11 : (1 : Nat) < 1 := (List.chain'_cons.mp hc).1
  omega

/-! ## Per-path error isolation (C3) -/

theorem tier1Loop_append (w : WinWorld) (l1 l2 : List String) (i n : Nat) :
    OpenerWin.tier1Loop w (l1 ++ l2) i n
      = OpenerWin.tier1Loop w l1 i n ++ OpenerWin.tier1Loop w l2 (i + l1.length) n := by
  induction l1 generalizing i with
  | nil => simp [OpenerWin.tier1Loop]
  | cons a l1 ih =>
      simp only [List.cons_append, OpenerWin.tier1Loop, List.append_assoc, List.length_cons]
      rw [show i + (l1.length + 1) = i + 1 + l1.length from by omega, ← ih (i + 1)]
      rfl

theorem tier2Loop_append (w : WinWorld) (l1 l2 : List String) (i n : Nat) :
    OpenerWin.tier2Loop w (l1 ++ l2) i n
      = OpenerWin.tier2Loop w l1 i n ++ OpenerWin.tier2Loop w l2 (i + l1.length) n := by
  induction l1 generalizing i with
  | nil => simp [OpenerWin.tier2Loop]
  | cons a l1 ih =>
      simp only [List.cons_append, OpenerWin.tier2Loop, List.append_assoc, List.length_cons]
      rw [show i + (l1.length + 1) = i + 1 + l1.length from by omega, ← ih (i + 1)]
      rfl

theorem sepLoopWin_append (w : WinWorld) (rect : Option Rect) (l1 l2 : List String)
    (i n : Nat) :
    OpenerWin.sepLoop w rect (l1 ++ l2) i n
      = OpenerWin.sepLoop w rect l1 i n ++ OpenerWin.sepLoop w rect l2 (i + l1.length) n := by
  induction l1 generalizing i with
  | nil => simp [OpenerWin.sepLoop]
  | cons a l1 ih =>
      simp only [List.cons_append, OpenerWin.sepLoop, List.append_assoc, List.length_cons]
      rw [show i + (l1.length + 1) = i + 1 + l1.length from by omega, ← ih (i + 1)]
      rfl

theorem sepLoopMac_append (w : MacWorld) (rect : Option Rect) (l1 l2 : List String)
    (i n : Nat) :
    OpenerMac.sepLoop w rect (l1 ++ l2) i n
      = OpenerMac.sepLoop w rect l1 i n ++ OpenerMac.sepLoop w rect l2 (i + l1.length) n := by
  induction l1 generalizing i with
  | nil => simp [OpenerMac.sepLoop]
  | cons a l1 ih =>
      simp only [List.cons_append, OpenerMac.sepLoop, List.append_assoc, List.length_cons]
      rw [show i + (l1.length + 1) = i + 1 + l1.length from by omega, ← ih (i + 1)]
      rfl

/-- C3: in every per-path loop (the Windows tier-1 tab loop, the Windows
tier-2 keystroke loop, and both platforms' separate-windows fallbacks),
a path whose per-path step raises contributes exactly one error event
for that path (and no progress event), the surrounding paths are
processed exactly as they would be otherwise — the loop continues with
the remaining paths — and the separate-windows tiers still return
`True`. -/
theorem C3_per_path_error_isolated (ww : WinWorld) (wm : MacWorld) (rect : Option Rect)
    (p : String) (e1 e2 e3 e4 : PyExc) (pre suf : List String) (i n : Nat)
    (h1 : ww.tier1PathStep p = .error e1)
    (h2 : ww.tier2PathStep p = .error e2)
    (h3 : ww.sepSpawn p = .error e3)
    (h4 : wm.popenScript (_build_open_window_script p rect) = .error e4) :
    OpenerWin.tier1Loop ww (pre ++ p :: suf) i n
      = OpenerWin.tier1Loop ww pre i n
        ++ [Event.osOpen p, Event.error p e1.msg]
        ++ OpenerWin.tier1Loop ww suf (i + pre.length + 1) n
    ∧ OpenerWin.tier2Loop ww (pre ++ p :: suf) i n
      = OpenerWin.tier2Loop ww pre i n
        ++ [Event.osOpen p, Event.error p e2.msg]
        ++ OpenerWin.tier2Loop ww suf (i + pre.length + 1) n
    ∧ OpenerWin.sepLoop ww rect (pre ++ p :: suf) i n
      = OpenerWin.sepLoop ww rect pre i n
        ++ [Event.osOpen p, Event.error p e3.msg]
        ++ OpenerWin.sepLoop ww rect suf (i + pre.length + 1) n
    ∧ OpenerMac.sepLoop wm rect (pre ++ p :: suf) i n
      = OpenerMac.sepLoop wm rect pre i n
        ++ [Event.osOpen p, Event.error p e4.msg]
        ++ OpenerMac.sepLoop wm rect suf (i + pre.length + 1) n
    ∧ (OpenerWin._open_tabs_separate ww (pre ++ p :: suf) rect).1 = true
    ∧ (OpenerMac._open_separate wm (pre ++ p :: suf) rect).1 = true := by
  refine ⟨?_, ?_, ?_, ?_, rfl, rfl⟩
  · rw [tier1Loop_append]
    simp [OpenerWin.tier1Loop, h1, List.append_assoc]
  · rw [tier2Loop_append]
    simp [OpenerWin.tier2Loop, h2, List.append_assoc]
  · rw [sepLoopWin_append]
    simp [OpenerWin.sepLoop, h3, List.append_assoc]
  · rw [sepLoopMac_append]
    simp [OpenerMac.sepLoop, h4, List.append_assoc]

/-- C3 witness: in the Windows separate-windows tier over
`["/x", "/bad", "/y"]`, the failing middle path contributes exactly one
error event and `"/y"` is still processed; the tier returns `True`. -/
theorem C3_per_path_error_isolated_witness :
    OpenerWin.sepLoop badPathWinWorld none ["/x", "/bad", "/y"] 1 3
      = OpenerWin.sepLoop badPathWinWorld none ["/x"] 1 3
        ++ [Event.osOpen "/bad", Event.error "/bad" "boom"]
        ++ OpenerWin.sepLoop badPathWinWorld none ["/y"] 3 3
    ∧ (OpenerWin._open_tabs_separate badPathWinWorld ["/x", "/bad", "/y"] none).1 = true
    ∧ OpenerMac.sepLoop badPathMacWorld none ["/x", "/bad", "/y"] 1 3
      = OpenerMac.sepLoop badPathMacWorld none ["/x"] 1 3
        ++ [Event.osOpen "/bad", Event.error "/bad" "boom"]
        ++ OpenerMac.sepLoop badPathMacWorld none ["/y"] 3 3 := by
  have h := C3_per_path_error_isolated badPathWinWorld badPathMacWorld none "/bad"
    ⟨"boom"⟩ ⟨"boom"⟩ ⟨"boom"⟩ ⟨"boom"⟩ ["/x"] ["/y"] 1 3
    rfl rfl rfl rfl
  exact ⟨h.2.2.1, h.2.2.2.2.1, h.2.2.2.1⟩

/-! ## Deduplication (C6) -/

theorem dictFromkeysGo_sublist (seen l : List String) :
    (dictFromkeysGo seen l).Sublist l := by
  induction l generalizing seen with
  | nil => simp [dictFromkeysGo]
  | cons p rest ih =>
      by_cases h : p ∈ seen
      · simp only [dictFromkeysGo, if_pos h]
        exact (ih seen).cons p
      · simp only [dictFromkeysGo, if_neg h]
        exact (ih (p :: seen)).cons₂ p

theorem dictFromkeysGo_mem (seen l : List String) (a : String) :
    a ∈ dictFromkeysGo seen l ↔ a ∈ l ∧ a ∉ seen := by
  induction l generalizing seen with
  | nil => simp [dictFromkeysGo]
  | cons p rest ih =>
      by_cases h : p ∈ seen
      · simp only [dictFromkeysGo, if_pos h, ih, List.mem_cons]
        by_cases hap : a = p
        · subst hap; simp [h]
        · simp [hap]
      · simp only [dictFromkeysGo, if_neg h, List.mem_cons, ih, List.mem_cons]
        by_cases hap : a = p
        · subst hap; simp [h]
        · simp [hap]

theorem dictFromkeysGo_nodup (seen l : List String) : (dictFromkeysGo seen l).Nodup := by
  induction l generalizing seen with
  | nil => simp [dictFromkeysGo]
  | cons p rest ih =>
      by_cases h : p ∈ seen
      · simpa [dictFromkeysGo, h] using ih seen
      · simp only [dictFromkeysGo, if_neg h, List.nodup_cons]
        refine ⟨?_, ih (p :: seen)⟩
        intro hmem
        have hm := (dictFromkeysGo_mem (p :: seen) rest p).mp hmem
        exact hm.2 (List.mem_cons_self p _)

theorem progressOnly_enumProgress (ps : List String) (i n : Nat) :
    progressOnly (OpenerMac.enumProgress ps i n) = OpenerMac.enumProgress ps i n := by
  induction ps generalizing i with
  | nil => rfl
  | cons p rest ih => simp [OpenerMac.enumProgress, ih]

/-- C6: the Windows `open_folders_as_tabs` runs the tier cascade on
`list(dict.fromkeys(paths))` — a duplicate-free sublist of the input
containing exactly the input's elements, with first occurrences kept in
order, so `["/a", "/b", "/a"]` yields exactly one OS attempt for `/a`
and one for `/b`, in that order — while the macOS strategy performs no
deduplication: on success it emits one progress event per input element
(repeats included) and on failure hands the full expanded list to the
fallback, so `["/a", "/b", "/a"]` yields three OS attempts. -/
theorem C6_windows_dedups_mac_does_not (ww : WinWorld) (wm : MacWorld)
    (paths : List String) (rect : Option Rect) (hne : paths ≠ []) :
    OpenerWin.open_folders_as_tabs ww paths rect
      = OpenerWin.winBody ww (dictFromkeys paths) rect
    ∧ (dictFromkeys paths).Nodup
    ∧ (dictFromkeys paths).Sublist paths
    ∧ (∀ a, a ∈ dictFromkeys paths ↔ a ∈ paths)
    ∧ dictFromkeys ["/a", "/b", "/a"] = ["/a", "/b"]
    ∧ osOpenList (OpenerWin.open_folders_as_tabs demoWinWorld ["/a", "/b", "/a"] none).2
        = ["/a", "/b"]
    ∧ (macPrimaryFails wm paths rect = false →
        progressOnly (OpenerMac.open_folders_as_tabs wm paths rect).2
          = OpenerMac.enumProgress (paths.map wm.expanduser) 1 paths.length)
    ∧ (macPrimaryFails wm paths rect = true →
        fallbackCalls (OpenerMac.open_folders_as_tabs wm paths rect).2
          = [paths.map wm.expanduser])
    ∧ osOpenList (OpenerMac.open_folders_as_tabs failMacWorld ["/a", "/b", "/a"] none).2
        = ["/a", "/b", "/a"] := by
  obtain ⟨p0, rest, rfl⟩ := List.exists_cons_of_ne_nil hne
  refine ⟨rfl, dictFromkeysGo_nodup [] _, dictFromkeysGo_sublist [] _, ?_, by decide,
    by decide, ?_, ?_, by decide⟩
  · intro a
    rw [dictFromkeys, dictFromkeysGo_mem]
    simp
  · intro hok
    simp only [OpenerMac.open_folders_as_tabs]
    simp only [macPrimaryFails] at hok
    cases hrun : wm.runApplescript
        (_build_applescript ((p0 :: rest).map wm.expanduser) rect) with
    | ok pr =>
        cases pr with
        | mk success errMsg =>
            cases success with
            | true => simp [hrun, progressOnly_enumProgress]
            | false => rw [hrun] at hok; simp at hok
    | error e => rw [hrun] at hok; simp at hok
  · intro hfail
    exact (macOpen_props wm (p0 :: rest) rect (by simp)).2.1 hfail

/-- C6 witness: the concrete deduplication and OS-attempt facts. -/
theorem C6_windows_dedups_mac_does_not_witness :
    dictFromkeys ["/a", "/b", "/a"] = ["/a", "/b"]
    ∧ osOpenList (OpenerWin.open_folders_as_tabs demoWinWorld ["/a", "/b", "/a"] none).2
        = ["/a", "/b"]
    ∧ osOpenList (OpenerMac.open_folders_as_tabs failMacWorld ["/a", "/b", "/a"] none).2
        = ["/a", "/b", "/a"] := by
  have h := C6_windows_dedups_mac_does_not demoWinWorld failMacWorld ["/a", "/b", "/a"]
    none (by decide)
  exact ⟨h.2.2.2.2.1, h.2.2.2.2.2.1, h.2.2.2.2.2.2.2.2⟩

/-! ## Accessibility-error classification (C9) -/

/-- C9: when the macOS AppleScript tier reports failure, the single
error event is keyed to the first expanded path of the batch; if the
failure text contains any configured accessibility keyword
(case-insensitively), its message is the canned localized remediation
text, otherwise it carries the raw OS error string (prefixed
`"AppleScript error: "`). -/
theorem C9_accessibility_error_classified (w : MacWorld) (paths : List String)
    (rect : Option Rect) (msg : String) (hne : paths ≠ [])
    (hrun : w.runApplescript (_build_applescript (paths.map w.expanduser) rect)
      = .ok (false, msg)) :
    (isAccessibilityError msg = true →
      (errorList (OpenerMac.open_folders_as_tabs w paths rect).2).head?
        = some ((paths.map w.expanduser).headD "", t_accessibility w.lang))
    ∧ (isAccessibilityError msg = false →
      (errorList (OpenerMac.open_folders_as_tabs w paths rect).2).head?
        = some ((paths.map w.expanduser).headD "", "AppleScript error: " ++ msg)) := by
  obtain ⟨p0, rest, rfl⟩ := List.exists_cons_of_ne_nil hne
  simp only [List.map_cons] at hrun
  constructor <;> intro hacc <;>
    simp [OpenerMac.open_folders_as_tabs, hrun, hacc, errorList]

/-- C9 witness: the upper-case accessibility failure text is matched
case-insensitively and replaced by the canned English remediation
message, keyed to the first path. -/
theorem C9_accessibility_error_classified_witness :
    (errorList (OpenerMac.open_folders_as_tabs accMacWorld ["/a"] none).2).head?
      = some ("/a", t_accessibility "en") := by
  have h := C9_accessibility_error_classified accMacWorld ["/a"] none
    "Not authorized for ASSISTIVE access" (by decide) rfl
  have h2 := h.1 (by decide)
  simpa [accMacWorld] using h2

/-- C10: a requested rectangle whose width/height are below the platform
minimum (528×308) is applied with width/height raised to exactly the
minimum, while x and y pass through unchanged (off-screen values
included); width/height at or above the minimum are left unchanged; and
`_apply_window_rect` hands `MoveWindow` the rectangle exactly as given. -/
theorem C10_rect_clamped_to_minimum (x y w h : Int)
    (hw : w < FINDER_MIN_WIDTH) (hh : h < FINDER_MIN_HEIGHT) :
    _get_window_rect (some x) (some y) (some w) (some h)
      = some (x, y, FINDER_MIN_WIDTH, FINDER_MIN_HEIGHT)
    ∧ (∀ w' h' : Int, FINDER_MIN_WIDTH ≤ w' → FINDER_MIN_HEIGHT ≤ h' →
        _get_window_rect (some x) (some y) (some w') (some h') = some (x, y, w', h'))
    ∧ (∀ hwnd : Nat, ∀ r : Rect, _apply_window_rect hwnd r = Event.applyRect hwnd r) := by
  refine ⟨?_, ?_, fun _ _ => rfl⟩
  · simp [_get_window_rect, _save_geometry, _clamp_min,
      max_eq_right (le_of_lt hw), max_eq_right (le_of_lt hh)]
  · intro w' h' hw' hh'
    simp [_get_window_rect, _save_geometry, _clamp_min,
      max_eq_left hw', max_eq_left hh']

/-- C10 witness: an off-screen origin with a 100×50 request is applied
at the same origin with exactly 528×308. -/
theorem C10_rect_clamped_to_minimum_witness :
    _get_window_rect (some (-100)) (some (-200)) (some 100) (some 50)
      = some (-100, -200, 528, 308) := by
  have h := C10_rect_clamped_to_minimum (-100) (-200) 100 50 (by decide) (by decide)
  simpa [FINDER_MIN_WIDTH, FINDER_MIN_HEIGHT] using h.1

end FileTabOpener
